import Mathlib

/-!
Shallow embedding of the aion-keystore account module
(`accounts.js`, `accounts-util.js`) and proofs checking the repository's
specification against it.

Modelling conventions, stated once:

* JavaScript strings are modelled as their lists of UTF-16 code points
  (`JsStr := List Nat`); the code only manipulates ASCII hex strings and
  identifiers.
* `Buffer`s are modelled as `List Nat` whose entries are meant to be
  bytes; where `Buffer` storage itself truncates (hex rendering), an
  explicit `% 256` appears.
* The external collaborators (blake2b256, tweetnacl's ed25519, scrypt,
  PBKDF2, the AES-128-CTR keystream, the CSPRNG) are not part of the
  repository; they are gathered into a `Crypto` record of abstract
  functions, and theorems take the facts they need about them as
  hypotheses.  `testCrypto` is a concrete executable instance used by the
  witness theorems.
* Fallible code is embedded in `Except JsError`, with one `JsError`
  constructor per distinct `Error` thrown by the source.
-/

namespace AionKeystore

set_option maxRecDepth 1000000

/-- A JavaScript string, as its list of UTF-16 code points. -/
abbrev JsStr := List Nat

/-- Code points of a Lean string literal, for embedding the string
constants of the source. -/
def jstr (s : String) : JsStr := s.data.map Char.toNat

/-- ASCII case lowering of one code point, modelling
`String.prototype.toLowerCase` on the ASCII strings the code handles. -/
def toLowerCp (c : Nat) : Nat := if 65 ≤ c ∧ c ≤ 90 then c + 32 else c

/-- ASCII case raising of one code point, modelling
`String.prototype.toUpperCase`. -/
def toUpperCp (c : Nat) : Nat := if 97 ≤ c ∧ c ≤ 122 then c - 32 else c

/-- `s.toLowerCase()`. -/
def toLowerStr (s : JsStr) : JsStr := s.map toLowerCp

/-- The sixteen lowercase hex digit characters `0`-`9`, `a`-`f`. -/
def hexDigitChars : List Nat := [48, 49, 50, 51, 52, 53, 54, 55, 56, 57, 97, 98, 99, 100, 101, 102]

/-- The `n`-th lowercase hex digit character. -/
def hexDigitCp (n : Nat) : Nat := hexDigitChars.getD n 48

/-- Numeric value of a hex digit character (either case); `0` on any
other character, which the source never feeds in. -/
def hexVal (c : Nat) : Nat :=
  if 48 ≤ c ∧ c ≤ 57 then c - 48
  else if 97 ≤ c ∧ c ≤ 102 then c - 87
  else if 65 ≤ c ∧ c ≤ 70 then c - 55
  else 0

/-- `Buffer.prototype.toString('hex')`: lowercase hex rendering.  Buffer
cells are bytes, so values are reduced mod 256 exactly as `Buffer`
storage would truncate them. -/
def hexEncode : List Nat → JsStr
  | [] => []
  | x :: rest => hexDigitCp (x % 256 / 16) :: hexDigitCp (x % 16) :: hexEncode rest

/-- `Buffer.from(s, 'hex')`: consumes hex-digit pairs; a trailing lone
digit is dropped, which is node's behaviour. -/
def hexDecode : JsStr → List Nat
  | c1 :: c2 :: rest => (hexVal c1 * 16 + hexVal c2) :: hexDecode rest
  | _ => []

/-- Modelled from the spec: `removeLeadingZeroX` lives in the absent
`accounts-format` module; per the spec's address text format it strips a
leading `0x`.  It also models `.replace('0x','')` at the call sites where
the argument starts with `0x`. -/
def strip0x (s : JsStr) : JsStr := if s.take 2 = jstr "0x" then s.drop 2 else s

/-- Modelled from the spec: `prependZeroX` from the absent
`accounts-format` module prepends the `0x` tag. -/
def prependZeroX (s : JsStr) : JsStr := jstr "0x" ++ s

/-- Modelled from the spec: `bufferToZeroXHex` from the absent
`accounts-format` module renders bytes as a `0x` hex string. -/
def bufferToZeroXHex (b : List Nat) : JsStr := jstr "0x" ++ hexEncode b

/-- Modelled from the spec: `toBuffer` from the absent `accounts-format`
module, at the call sites receiving a `0x` hex string, yields its
bytes. -/
def toBufferHex (s : JsStr) : List Nat := hexDecode (strip0x s)

/-- The external cryptographic collaborators.  The spec treats them as
pre-existing capabilities with fixed contracts (256-bit hash, ed25519
with 32-byte seed/public key and 64-byte secret key and signature,
scrypt/PBKDF2 KDFs, AES-128-CTR as a keystream, a CSPRNG); theorems take
the contract facts they rely on as hypotheses. -/
structure Crypto where
  blake2b256 : List Nat → List Nat
  scrypt : List Nat → List Nat → Nat → Nat → Nat → Nat → List Nat
  pbkdf2 : List Nat → List Nat → Nat → Nat → List Nat
  keystream : List Nat → List Nat → Nat → Nat
  naclPub : List Nat → List Nat
  seedSecret : List Nat → List Nat
  seedPub : List Nat → List Nat
  naclSign : List Nat → List Nat → List Nat
  naclVerify : List Nat → List Nat → List Nat → Bool
  randomBytes : Nat → List Nat

/-- One constructor per distinct `Error` the embedded source throws; the
constructor names abbreviate the thrown messages (for example
`authenticationError` is `Key derivation failed - possibly wrong
password` and `referenceError n` is the `ReferenceError` raised on
reading the undeclared identifier `n`). -/
inductive JsError where
  | noPasswordGiven
  | notValidV3
  | pbkdf2NotSupported
  | unsupportedKdf
  | authenticationError
  | badSecretKeySize
  | badSeedSize
  | unsupportedCipher
  | notSupported
  | typeError
  | noTransactionGiven
  | gasMissing
  | negativeValues
  | notProvided
  | couldNotVerify
  | referenceError (name : JsStr)
deriving DecidableEq

/-- A tweetnacl key pair as `accounts-util.js` returns it: the 64-byte
expanded secret key and the 32-byte public key. -/
structure KeyPair where
  privateKey : List Nat
  publicKey : List Nat
deriving DecidableEq

/-- An account as `createAionAccount` assembles it: the key pair plus the
derived `0x` address. -/
structure Account where
  privateKey : List Nat
  publicKey : List Nat
  address : JsStr
deriving DecidableEq

/-- `Buffer.concat(list, totalLength)`: concatenation padded with zero
bytes, or truncated, to exactly `len` cells. -/
def concatTo (b : List Nat) (len : Nat) : List Nat := (b ++ List.replicate len 0).take len

/-- `A0_IDENTIFIER`: the 1-byte network tag `a0`. -/
def A0_IDENTIFIER : List Nat := [160]

/-- `accounts-util.js` `createA0Address`: blake2b256 the public key, keep
bytes 1..31 (`slice(1, 32)`), put the `a0` tag in front (`Buffer.concat`
with total length 32), hex-render with a `0x` tag. -/
def createA0Address (C : Crypto) (publicKey : List Nat) : JsStr :=
  prependZeroX (hexEncode (concatTo (A0_IDENTIFIER ++ ((C.blake2b256 publicKey).drop 1).take 31) 32))

/-- `accounts-util.js` `createKeyPair`.  With a `privateKey` it calls
`nacl.sign.keyPair.fromSecretKey`, which (tweetnacl contract) demands a
64-byte secret key and embeds the public key.  Without one it takes the
supplied entropy — a wrong entropy length is only `console.log`ged, NOT
an error — and calls `fromSeed(entropy.slice(0, 32))`, which demands a
32-byte seed. -/
def createKeyPair (C : Crypto) (privateKey : Option JsStr) (entropy : Option (List Nat)) :
    Except JsError KeyPair :=
  match privateKey with
  | some pk =>
    let sk := toBufferHex pk
    if sk.length = 64 then .ok ⟨sk, C.naclPub sk⟩ else .error .badSecretKeySize
  | none =>
    let ent := entropy.getD (C.randomBytes 32)
    let seed := ent.take 32
    if seed.length = 32 then .ok ⟨C.seedSecret seed, C.seedPub seed⟩ else .error .badSeedSize

/-- `createAionAccount` / `Accounts.prototype.privateKeyToAccount`:
build the key pair from a secret key and attach the derived address. -/
def privateKeyToAccount (C : Crypto) (privateKey : JsStr) : Except JsError Account :=
  (createKeyPair C (some privateKey) none).map fun kp =>
    ⟨kp.privateKey, kp.publicKey, createA0Address C kp.publicKey⟩

/-- A byte-mixing fold used by the concrete `testCrypto` stand-ins for
the external primitives in witness theorems. -/
def rollByte (seedv : Nat) (b : List Nat) : Nat :=
  b.foldl (fun a c => ((a ^^^ (c * 37)) * 31 + c + 1) % 256) (seedv % 256)

/-- A concrete executable `Crypto` instance for witnesses.  The functions
are stand-ins, not the real primitives: witnesses only need concrete
values satisfying the stated contract hypotheses. -/
def testCrypto : Crypto where
  blake2b256 := fun b => (List.range 32).map fun i => rollByte (i + b.length) b
  scrypt := fun pw salt n r p dklen =>
    (List.range dklen).map fun i => (rollByte i pw + rollByte i salt + n + r + p) % 256
  pbkdf2 := fun pw salt c dklen =>
    (List.range dklen).map fun i => (rollByte i pw + rollByte i salt + c) % 256
  keystream := fun key iv i => (rollByte i key + rollByte i iv) % 256
  naclPub := fun sk => (List.range 32).map fun i => rollByte (i + 7) sk
  seedSecret := fun seed => seed ++ (List.range 32).map fun i => rollByte (i + 7) seed
  seedPub := fun seed => (List.range 32).map fun i => rollByte (i + 7) seed
  naclSign := fun msg sk => (List.range 64).map fun i => rollByte (i + 3) (msg ++ sk)
  naclVerify := fun _ _ _ => true
  randomBytes := fun n => (List.range n).map fun i => (i * 37 + 11) % 256

theorem hexEncode_length (b : List Nat) : (hexEncode b).length = 2 * b.length := by
  induction b with
  | nil => rfl
  | cons x rest ih => simp [hexEncode, ih]; ring

theorem hexDigitCp_mem (n : Nat) : hexDigitCp n ∈ hexDigitChars := by
  unfold hexDigitCp
  by_cases hn : n < hexDigitChars.length
  · rw [List.getD_eq_getElem _ _ hn]
    exact List.getElem_mem hn
  · rw [List.getD_eq_default _ _ (Nat.le_of_not_lt hn)]
    decide

theorem hexEncode_mem_hexDigitChars (b : List Nat) :
    ∀ c ∈ hexEncode b, c ∈ hexDigitChars := by
  induction b with
  | nil => intro c h; cases h
  | cons x rest ih =>
    intro c h
    simp only [hexEncode, List.mem_cons] at h
    rcases h with h | h | h
    · exact h ▸ hexDigitCp_mem _
    · exact h ▸ hexDigitCp_mem _
    · exact ih c h

/-- `Accounts.prototype.hashMessage`: the first statement is
`throw new Error("functionality currently not supported")`, so the
preamble-hashing code below it is unreachable and the function errors on
every input. -/
def hashMessage (_data : JsStr) : Except JsError JsStr := .error .notSupported

/-- `Accounts.prototype.sign`: the first statement is
`throw new Error("functionality currently not supported")`, so the
signing code below it is unreachable and the function errors on every
input. -/
def sign (_data : JsStr) (_privateKey : JsStr) : Except JsError Unit := .error .notSupported

/-- Claim C7: for every public key the derived address is the 1-byte
network tag `a0` followed by bytes 1..31 of the 256-bit hash of the
public key (the hash's first byte dropped), rendered as `0x` plus 64
lowercase hex characters (32 bytes).  The hypothesis is the hash
collaborator's contract (256-bit output). -/
theorem createA0Address_spec (C : Crypto) (pub : List Nat)
    (hlen : (C.blake2b256 pub).length = 32) :
    createA0Address C pub = jstr "0x" ++ hexEncode (160 :: (C.blake2b256 pub).drop 1) ∧
    (createA0Address C pub).length = 66 ∧
    ∀ c ∈ (createA0Address C pub).drop 2, c ∈ hexDigitChars := by
  have h31 : ((C.blake2b256 pub).drop 1).length = 31 := by
    rw [List.length_drop, hlen]
  have htake : ((C.blake2b256 pub).drop 1).take 31 = (C.blake2b256 pub).drop 1 := by
    rw [List.take_eq_self_iff]
    omega
  have hb : (A0_IDENTIFIER ++ ((C.blake2b256 pub).drop 1).take 31).length = 32 := by
    rw [List.length_append, htake, h31]
    rfl
  have hconcat : concatTo (A0_IDENTIFIER ++ ((C.blake2b256 pub).drop 1).take 31) 32
      = 160 :: (C.blake2b256 pub).drop 1 := by
    unfold concatTo
    conv_lhs => rw [← hb]
    rw [List.take_left]
    rw [htake]
    rfl
  have hmain : createA0Address C pub = jstr "0x" ++ hexEncode (160 :: (C.blake2b256 pub).drop 1) := by
    unfold createA0Address prependZeroX
    rw [hconcat]
  have hlen64 : (hexEncode (160 :: (C.blake2b256 pub).drop 1)).length = 64 := by
    rw [hexEncode_length, List.length_cons, h31]
  refine ⟨hmain, ?_, ?_⟩
  · rw [hmain, List.length_append, hlen64]
    decide
  · intro c hc
    rw [hmain] at hc
    have h2 : (jstr "0x").length = 2 := by decide
    rw [← h2, List.drop_left] at hc
    exact hexEncode_mem_hexDigitChars _ c hc

/-- Witness for C7 at a concrete public key and the concrete
`testCrypto` collaborators. -/
theorem createA0Address_spec_witness :
    (testCrypto.blake2b256 (List.range 32)).length = 32 ∧
    createA0Address testCrypto (List.range 32)
      = jstr "0x" ++ hexEncode (160 :: (testCrypto.blake2b256 (List.range 32)).drop 1) :=
  ⟨by simp [testCrypto],
   (createA0Address_spec testCrypto (List.range 32) (by simp [testCrypto])).1⟩

/-- Claim C5 (code evidence): entropy whose length is 64 — not the
required 32-byte seed length — is accepted without any `InvalidKeyError`:
the source only `console.log`s the mismatch and builds a key pair from
`entropy.slice(0, 32)`. -/
theorem createKeyPair_wrong_entropy_ok (C : Crypto) (e : List Nat) (h : e.length = 64) :
    createKeyPair C none (some e)
      = .ok ⟨C.seedSecret (e.take 32), C.seedPub (e.take 32)⟩ := by
  unfold createKeyPair
  simp [List.length_take, h]

/-- Witness for C5's code evidence at 64 zero bytes of entropy. -/
theorem createKeyPair_wrong_entropy_ok_witness :
    (List.replicate 64 0).length = 64 ∧
    createKeyPair testCrypto none (some (List.replicate 64 0))
      = .ok ⟨testCrypto.seedSecret ((List.replicate 64 0).take 32),
             testCrypto.seedPub ((List.replicate 64 0).take 32)⟩ :=
  ⟨by decide, createKeyPair_wrong_entropy_ok testCrypto _ (by decide)⟩

/-- `accounts-util.js` `bit`: bit `index % 8` of byte `index / 8` of the
array.  Reading past the end gives `undefined`, which the shifts coerce
to `0`, modelled by the `getD` default. -/
def bit (arr : List Nat) (index : Nat) : Nat := (arr.getD (index / 8) 0 >>> (index % 8)) &&& 1

/-- `isNaN(char) === false` for a one-character string: true on the
decimal digits and on the whitespace characters `Number` coerces to 0. -/
def jsIsNumericCp (c : Nat) : Bool :=
  decide ((48 ≤ c ∧ c ≤ 57) ∨ c = 32 ∨ c = 9 ∨ c = 10 ∨ c = 11 ∨ c = 12 ∨ c = 13)

/-- The index-aware character map inside `createChecksumAddress`:
numeric characters pass through, others are upper- or lower-cased by bit
`i` of the address hash. -/
def csumMapFrom (hash : List Nat) : Nat → JsStr → JsStr
  | _, [] => []
  | i, c :: rest =>
    (if jsIsNumericCp c then c
     else if bit hash i = 1 then toUpperCp c else toLowerCp c) :: csumMapFrom hash (i + 1) rest

/-- `accounts-util.js` `createChecksumAddress`: lowercase, strip `0x`,
blake2b256-hash the stripped address (the absent `accounts-format`
`toBuffer` is modelled as hex decoding, per the spec's address format),
then case each character by the hash bits. -/
def createChecksumAddress (C : Crypto) (val : JsStr) : JsStr :=
  prependZeroX (csumMapFrom (C.blake2b256 (hexDecode (strip0x (toLowerStr val)))) 0
    (strip0x (toLowerStr val)))

/-- `accounts-util.js` `isValidChecksumAddress`: recompute and compare
case-sensitively. -/
def isValidChecksumAddress (C : Crypto) (val : JsStr) : Bool :=
  val == createChecksumAddress C val

/-- Case flip of one ASCII code point (used to state the claim's
"flipping the case of one character"). -/
def flipCp (c : Nat) : Nat :=
  if 65 ≤ c ∧ c ≤ 90 then c + 32 else if 97 ≤ c ∧ c ≤ 122 then c - 32 else c

/-- Flip the case of the character at position `i`. -/
def flipCaseAt (s : JsStr) (i : Nat) : JsStr := s.set i (flipCp (s.getD i 0))

/-- An ASCII alphabetic code point. -/
def isAlphaCp (c : Nat) : Bool := decide ((65 ≤ c ∧ c ≤ 90) ∨ (97 ≤ c ∧ c ≤ 122))

theorem toLowerCp_toLowerCp (c : Nat) : toLowerCp (toLowerCp c) = toLowerCp c := by
  unfold toLowerCp
  split <;> (try split) <;> omega

theorem toLowerCp_toUpperCp_toLowerCp (c : Nat) :
    toLowerCp (toUpperCp (toLowerCp c)) = toLowerCp c := by
  unfold toLowerCp toUpperCp
  split <;> (try split) <;> (try split) <;> omega

theorem toLowerCp_flipCp (c : Nat) : toLowerCp (flipCp c) = toLowerCp c := by
  unfold toLowerCp flipCp
  split <;> (try split) <;> (try split) <;> omega

theorem toLowerStr_toLowerStr (s : JsStr) : toLowerStr (toLowerStr s) = toLowerStr s := by
  unfold toLowerStr
  rw [List.map_map]
  exact List.map_congr_left fun c _ => toLowerCp_toLowerCp c

theorem toLowerStr_strip0x (s : JsStr) (h : toLowerStr s = s) :
    toLowerStr (strip0x s) = strip0x s := by
  unfold strip0x
  split
  · unfold toLowerStr at h ⊢
    rw [List.map_drop, h]
  · exact h

theorem toLowerStr_csumMapFrom (hash : List Nat) (a : JsStr) :
    ∀ i, toLowerStr a = a → toLowerStr (csumMapFrom hash i a) = a := by
  induction a with
  | nil => intro i _; rfl
  | cons c rest ih =>
    intro i h
    unfold toLowerStr at h
    simp only [List.map_cons, List.cons.injEq] at h
    obtain ⟨hc, hrest⟩ := h
    unfold csumMapFrom toLowerStr
    simp only [List.map_cons, List.cons.injEq]
    refine ⟨?_, ih (i + 1) hrest⟩
    split
    · exact hc
    · split
      · have hstep : toLowerCp (toUpperCp c) = toLowerCp (toUpperCp (toLowerCp c)) := by
          rw [hc]
        rw [hstep, toLowerCp_toUpperCp_toLowerCp]
        exact hc
      · rw [toLowerCp_toLowerCp]
        exact hc

theorem strip0x_prepend (a : JsStr) : strip0x (jstr "0x" ++ a) = a := by
  unfold strip0x
  have : (jstr "0x" ++ a).take 2 = jstr "0x" := by
    simp [jstr]
  rw [if_pos this]
  simp [jstr]

theorem toLowerStr_append (s t : JsStr) :
    toLowerStr (s ++ t) = toLowerStr s ++ toLowerStr t := List.map_append toLowerCp s t

theorem toLowerStr_createChecksumAddress (C : Crypto) (v : JsStr) :
    toLowerStr (createChecksumAddress C v) = jstr "0x" ++ strip0x (toLowerStr v) := by
  unfold createChecksumAddress prependZeroX
  rw [toLowerStr_append]
  have h0x : toLowerStr (jstr "0x") = jstr "0x" := by decide
  have ha : toLowerStr (strip0x (toLowerStr v)) = strip0x (toLowerStr v) :=
    toLowerStr_strip0x _ (toLowerStr_toLowerStr v)
  rw [h0x, toLowerStr_csumMapFrom _ _ 0 ha]

theorem createChecksumAddress_lower_congr (C : Crypto) (s t : JsStr)
    (h : toLowerStr s = toLowerStr t) :
    createChecksumAddress C s = createChecksumAddress C t := by
  unfold createChecksumAddress
  rw [h]

theorem createChecksumAddress_idem (C : Crypto) (v : JsStr) :
    createChecksumAddress C (createChecksumAddress C v) = createChecksumAddress C v := by
  have hstep : createChecksumAddress C (createChecksumAddress C v)
      = prependZeroX (csumMapFrom
          (C.blake2b256 (hexDecode (strip0x (toLowerStr (createChecksumAddress C v))))) 0
          (strip0x (toLowerStr (createChecksumAddress C v)))) := rfl
  rw [hstep, toLowerStr_createChecksumAddress, strip0x_prepend]
  rfl

theorem set_getD_self (s : List Nat) : ∀ i, s.set i (s.getD i 0) = s := by
  induction s with
  | nil => intro i; rfl
  | cons c rest ih =>
    intro i
    cases i with
    | zero => rfl
    | succ j =>
      show c :: rest.set j (rest.getD j 0) = c :: rest
      rw [ih j]

theorem set_ne_of_ne (s : List Nat) :
    ∀ i x, i < s.length → x ≠ s.getD i 0 → s.set i x ≠ s := by
  induction s with
  | nil => intro i x hi _; simp at hi
  | cons c rest ih =>
    intro i x hi hx
    cases i with
    | zero =>
      simp only [List.set]
      intro h
      injection h with h1 _
      exact hx (by simpa using h1)
    | succ j =>
      simp only [List.set]
      intro h
      injection h with _ h2
      exact ih j x (by simpa using hi) (by simpa using hx) h2

theorem getD_map_toLowerCp (s : JsStr) : ∀ i, (s.map toLowerCp).getD i 0 = toLowerCp (s.getD i 0) := by
  induction s with
  | nil => intro i; cases i <;> rfl
  | cons c rest ih =>
    intro i
    cases i with
    | zero => rfl
    | succ j => simpa using ih j

theorem toLowerStr_flipCaseAt (s : JsStr) (i : Nat) :
    toLowerStr (flipCaseAt s i) = toLowerStr s := by
  unfold flipCaseAt toLowerStr
  rw [List.map_set, toLowerCp_flipCp, ← getD_map_toLowerCp, set_getD_self]

theorem flipCp_ne_of_alpha (c : Nat) (h : isAlphaCp c = true) : flipCp c ≠ c := by
  unfold isAlphaCp at h
  unfold flipCp
  rw [decide_eq_true_eq] at h
  split <;> [skip; split] <;> omega

theorem getD_csumMapFrom (hash : List Nat) (a : JsStr) :
    ∀ i j, i < a.length →
      (csumMapFrom hash j a).getD i 0 =
        (if jsIsNumericCp (a.getD i 0) then a.getD i 0
         else if bit hash (j + i) = 1 then toUpperCp (a.getD i 0) else toLowerCp (a.getD i 0)) := by
  induction a with
  | nil => intro i j h; simp at h
  | cons c rest ih =>
    intro i j hi
    cases i with
    | zero => simp [csumMapFrom, List.getD]
    | succ k =>
      have := ih k (j + 1) (by simpa using hi)
      unfold csumMapFrom
      simp only [List.getD_cons_succ]
      rw [this]
      have harith : j + 1 + k = j + (k + 1) := by omega
      rw [harith]

/-- Claim C8: (1) a checksummed address always re-validates; (2) flipping
the case of one alphabetic character of it makes validation fail; (3) the
casing rule: the output character at position `i` of the stripped address
is unchanged when numeric, else upper-cased exactly when bit `i % 8` of
byte `i / 8` of the hash of the lowercase prefix-stripped address is 1. -/
theorem checksum_spec (C : Crypto) (v : JsStr) (i : Nat) :
    isValidChecksumAddress C (createChecksumAddress C v) = true ∧
    (i < (createChecksumAddress C v).length →
      isAlphaCp ((createChecksumAddress C v).getD i 0) = true →
      isValidChecksumAddress C (flipCaseAt (createChecksumAddress C v) i) = false) ∧
    (i < (strip0x (toLowerStr v)).length →
      (createChecksumAddress C v).getD (i + 2) 0 =
        (if jsIsNumericCp ((strip0x (toLowerStr v)).getD i 0) then (strip0x (toLowerStr v)).getD i 0
         else if bit (C.blake2b256 (hexDecode (strip0x (toLowerStr v)))) i = 1
           then toUpperCp ((strip0x (toLowerStr v)).getD i 0)
           else toLowerCp ((strip0x (toLowerStr v)).getD i 0))) := by
  refine ⟨?_, ?_, ?_⟩
  · unfold isValidChecksumAddress
    rw [createChecksumAddress_idem]
    exact beq_self_eq_true _
  · intro hi halpha
    have h1 : createChecksumAddress C (flipCaseAt (createChecksumAddress C v) i)
        = createChecksumAddress C (createChecksumAddress C v) :=
      createChecksumAddress_lower_congr C _ _
        (by rw [toLowerStr_flipCaseAt])
    have h2 : createChecksumAddress C (createChecksumAddress C v) = createChecksumAddress C v :=
      createChecksumAddress_idem C v
    have h3 : flipCaseAt (createChecksumAddress C v) i ≠ createChecksumAddress C v :=
      set_ne_of_ne _ i _ hi (flipCp_ne_of_alpha _ halpha)
    unfold isValidChecksumAddress
    rw [h1, h2]
    exact beq_eq_false_iff_ne.mpr h3
  · intro hi
    have hshape : createChecksumAddress C v
        = 48 :: 120 :: csumMapFrom (C.blake2b256 (hexDecode (strip0x (toLowerStr v)))) 0
            (strip0x (toLowerStr v)) := rfl
    rw [hshape, List.getD_cons_succ, List.getD_cons_succ,
      getD_csumMapFrom _ _ i 0 hi, Nat.zero_add]

/-- Witness for C8 at the concrete address string `0xAb12`, flip
position 2 (the first address character), and the concrete `testCrypto`
hash. -/
theorem checksum_spec_witness :
    (2 < (createChecksumAddress testCrypto (jstr "0xAb12")).length ∧
      isAlphaCp ((createChecksumAddress testCrypto (jstr "0xAb12")).getD 2 0) = true ∧
      2 < (strip0x (toLowerStr (jstr "0xAb12"))).length) ∧
    isValidChecksumAddress testCrypto (createChecksumAddress testCrypto (jstr "0xAb12")) = true ∧
    isValidChecksumAddress testCrypto
      (flipCaseAt (createChecksumAddress testCrypto (jstr "0xAb12")) 2) = false ∧
    (createChecksumAddress testCrypto (jstr "0xAb12")).getD (2 + 2) 0 =
      (if jsIsNumericCp ((strip0x (toLowerStr (jstr "0xAb12"))).getD 2 0)
        then (strip0x (toLowerStr (jstr "0xAb12"))).getD 2 0
       else if bit (testCrypto.blake2b256 (hexDecode (strip0x (toLowerStr (jstr "0xAb12"))))) 2 = 1
        then toUpperCp ((strip0x (toLowerStr (jstr "0xAb12"))).getD 2 0)
        else toLowerCp ((strip0x (toLowerStr (jstr "0xAb12"))).getD 2 0)) :=
  ⟨⟨by decide, by decide, by decide⟩,
   (checksum_spec testCrypto (jstr "0xAb12") 2).1,
   (checksum_spec testCrypto (jstr "0xAb12") 2).2.1 (by decide) (by decide),
   (checksum_spec testCrypto (jstr "0xAb12") 2).2.2 (by decide)⟩

/-- Claim C9 (code evidence): both arbitrary-message endpoints raise
`functionality currently not supported` on every input — the API surface
is exposed yet unconditionally raising, which the spec forbids. -/
theorem sign_hashMessage_always_raise (d pk : JsStr) :
    hashMessage d = .error .notSupported ∧ sign d pk = .error .notSupported :=
  ⟨rfl, rfl⟩

/-! ## The nested list/byte-string codec (external `aion-rlp`)

The codec is an external collaborator (spec §1, §6): a recursive
length-prefixed list/byte-string encoding with a distinct big-integer
wire form (`AionLong`).  The definitions below realize that contract
concretely so the embedding stays executable. -/

/-- Big-endian byte digits with explicit recursion fuel (the fuel only
needs to dominate the digit count; `natBE` passes `n` itself). -/
def natBEAux : Nat → Nat → List Nat
  | 0, _ => []
  | fuel + 1, n => if n = 0 then [] else natBEAux fuel (n / 256) ++ [n % 256]

/-- Minimal big-endian bytes of a natural number (`bn.js` `toBuffer`
behaviour inside the codec; zero is the empty byte string). -/
def natBE (n : Nat) : List Nat := natBEAux n n

/-- Modelled from the spec: the external codec's dedicated big-integer
wire form (`AionLong`) — a fixed 8-byte big-endian rendering, distinct
from the minimal byte-string form. -/
def be8 (n : Nat) : List Nat := (List.range 8).map fun i => n / 256 ^ (7 - i) % 256

/-- Big-endian value of a byte string. -/
def beVal (b : List Nat) : Nat := b.foldl (fun a c => a * 256 + c) 0

/-- Values handed to the codec's `encode`: JS strings, numbers,
`AionLong`s (`none` embeds the `null` that `toAionLong` returns on empty
input), raw `Buffer`s and nested arrays. -/
inductive RlpInput where
  | str (s : JsStr)
  | num (n : Int)
  | long (v : Option Int)
  | raw (b : List Nat)
  | list (xs : List RlpInput)

/-- Left-pad a hex string to even length (`padToEven` inside the codec's
`toBuffer`). -/
def padEven (s : JsStr) : JsStr := if s.length % 2 = 1 then 48 :: s else s

/-- The codec's `toBuffer` on a JS string: `0x`-tagged strings are hex
decoded, others are taken as their (byte-truncated) character codes. -/
def rlpStrBytes (s : JsStr) : List Nat :=
  if s.take 2 = jstr "0x" then hexDecode (padEven (s.drop 2)) else s.map (· % 256)

/-- Length header of the codec: short form below 56 payload bytes, long
form with a big-endian length otherwise.  `base` is 128 for byte strings
and 192 for lists. -/
def lenTag (base : Nat) (b : List Nat) : List Nat :=
  if b.length < 56 then (base + b.length) :: b
  else (base + 55 + (natBE b.length).length) :: (natBE b.length ++ b)

/-- Byte-string encoding: a single byte below 128 stands for itself. -/
def encodeBytes (b : List Nat) : List Nat :=
  if b.length = 1 ∧ b.getD 0 0 < 128 then b else lenTag 128 b

mutual

/-- `rlp.encode`, recursing on explicit fuel so that the definition
computes by reduction; the fuel only needs to dominate the nesting depth
plus item count (every call site passes a generous constant). -/
def rlpEncodeF : Nat → RlpInput → List Nat
  | _, .str s => encodeBytes (rlpStrBytes s)
  | _, .num n => encodeBytes (natBE n.toNat)
  | _, .long none => encodeBytes []
  | _, .long (some v) => encodeBytes (be8 v.toNat)
  | _, .raw b => encodeBytes b
  | 0, .list _ => []
  | fuel + 1, .list xs => lenTag 192 (rlpEncodeItemsF fuel xs)

/-- `rlpEncodeF` over the items of an array. -/
def rlpEncodeItemsF : Nat → List RlpInput → List Nat
  | _, [] => []
  | 0, _ :: _ => []
  | fuel + 1, x :: rest => rlpEncodeF fuel x ++ rlpEncodeItemsF fuel rest

end

/-- `rlp.encode`.  The fuel 64 is unreachable by the shallow inputs the
source builds (flat lists of at most nine atoms). -/
def rlpEncode (x : RlpInput) : List Nat := rlpEncodeF 64 x

/-- A decoded codec value: a `Buffer` or a nested array. -/
inductive RlpVal where
  | bytes (b : List Nat)
  | list (xs : List RlpVal)

mutual

/-- `rlp.encode` applied to already-decoded values (the re-encoding step
of `signTransaction` encodes the decoded array again), fuelled like
`rlpEncodeF`. -/
def rlpEncodeValF : Nat → RlpVal → List Nat
  | _, .bytes b => encodeBytes b
  | 0, .list _ => []
  | fuel + 1, .list xs => lenTag 192 (rlpEncodeValItemsF fuel xs)

/-- `rlpEncodeValF` over array items. -/
def rlpEncodeValItemsF : Nat → List RlpVal → List Nat
  | _, [] => []
  | 0, _ :: _ => []
  | fuel + 1, x :: rest => rlpEncodeValF fuel x ++ rlpEncodeValItemsF fuel rest

end

/-- `rlp.encode` over a list of already-decoded values. -/
def rlpEncodeValItems (xs : List RlpVal) : List Nat := rlpEncodeValItemsF 64 xs

mutual

/-- One step of `rlp.decode`: decode the first item of the byte stream,
returning it with the remainder.  `fuel` bounds the recursion depth. -/
def rlpDecOne : Nat → List Nat → Option (RlpVal × List Nat)
  | 0, _ => none
  | _ + 1, [] => none
  | fuel + 1, c :: rest =>
    if c < 128 then some (.bytes [c], rest)
    else if c < 184 then
      if rest.length < c - 128 then none
      else some (.bytes (rest.take (c - 128)), rest.drop (c - 128))
    else if c < 192 then
      let lol := c - 183
      let len := beVal (rest.take lol)
      if rest.length < lol + len then none
      else some (.bytes ((rest.drop lol).take len), (rest.drop lol).drop len)
    else if c < 248 then
      if rest.length < c - 192 then none
      else
        match rlpDecList fuel (rest.take (c - 192)) with
        | some items => some (.list items, rest.drop (c - 192))
        | none => none
    else
      let lol := c - 247
      let len := beVal (rest.take lol)
      if rest.length < lol + len then none
      else
        match rlpDecList fuel ((rest.drop lol).take len) with
        | some items => some (.list items, (rest.drop lol).drop len)
        | none => none

/-- Decode every item of a list payload. -/
def rlpDecList : Nat → List Nat → Option (List RlpVal)
  | 0, _ => none
  | _ + 1, [] => some []
  | fuel + 1, b =>
    match rlpDecOne fuel b with
    | some (v, rest) =>
      match rlpDecList fuel rest with
      | some vs => some (v :: vs)
      | none => none
    | none => none

end

/-- `rlp.decode` of a complete byte stream (`rlp.decode` rejects
trailing bytes). -/
def rlpDecodeTop (b : List Nat) : Option RlpVal :=
  match rlpDecOne (b.length + 1) b with
  | some (v, []) => some v
  | _ => none

/-! ## Transaction signing (`Accounts.prototype.signTransaction`) -/

/-- The transaction object, with the fields `signTransaction` reads.
The numeric fields are modelled as integers (the interface the claims
and the validation checks address); absent fields are `none`. -/
structure Tx where
  nonce : Option Int := none
  «to» : Option JsStr := none
  value : Option JsStr := none
  data : Option JsStr := none
  timestamp : Option Int := none
  gas : Option Int := none
  gasLimit : Option Int := none
  gasPrice : Option Int := none
  chainId : Option Int := none
  type : Option Int := none
deriving DecidableEq

/-- JS truthiness-based default (`v || d`) for an integer field: absent
and `0` both take the default. -/
def jsOrInt (o : Option Int) (d : Int) : Int :=
  match o with
  | none => d
  | some v => if v = 0 then d else v

/-- JS truthiness-based default (`v || d`) for a string field: absent
and the empty string both take the default. -/
def jsOrStr (o : Option JsStr) (d : JsStr) : JsStr :=
  match o with
  | none => d
  | some s => if s = [] then d else s

/-- JS falsiness of an integer field (`!v`): absent or `0`. -/
def jsFalsyI (o : Option Int) : Bool :=
  match o with
  | none => true
  | some v => v == 0

/-- The `< 0` test of the validation block; `undefined < 0` is false. -/
def negChk (o : Option Int) : Bool :=
  match o with
  | none => false
  | some v => decide (v < 0)

/-- Minimal hex digits with explicit recursion fuel. -/
def natHexAux : Nat → Nat → JsStr
  | 0, _ => []
  | fuel + 1, n => if n = 0 then [] else natHexAux fuel (n / 16) ++ [hexDigitCp (n % 16)]

/-- Minimal hex digits of a natural number, most significant first. -/
def natHexMin (n : Nat) : JsStr := natHexAux n n

/-- Modelled from the spec: `numberToHex` from the absent
`accounts-format` module — the standard web3 helper, `0x` plus the
minimal lowercase hex rendering (`0x0` for zero).  Negative input never
reaches it: the validation block rejects negative fields first. -/
def numberToHex (n : Int) : JsStr :=
  jstr "0x" ++ (if n.toNat = 0 then [48] else natHexMin n.toNat)

/-- `toAionLong` on the numeric gas fields: an absent value is the JS
`null` the source returns (encoded as the empty byte string); a number
becomes an `AionLong`. -/
def toAionLong (o : Option Int) : RlpInput :=
  match o with
  | none => .long none
  | some v => .long (some v)

/-- Modelled from the spec: `inputCallFormatter` lives in the absent
`accounts-format` module; the spec's canonicalization (§4.2) names no
field rewriting beyond the defaults applied after it, so it is modelled
as the identity on the transaction. -/
def inputCallFormatter (tx : Tx) : Tx := tx

/-- The result record of a successful `signTransaction`. -/
structure SignedResult where
  messageHash : JsStr
  signature : JsStr
  rawTransaction : JsStr
deriving DecidableEq

/-- `Accounts.prototype.signTransaction` (`accounts.js` 135-232).  The
account is built first (line 139); a missing transaction object or a
missing `nonce`/`gasPrice` rejects; inside `signed`: the `gas` presence
check, then the negativity check (its error overwrites the gas one, so
negativity wins when both fail), then canonicalize — defaults
`to`/`data`/`value` to `'0x'`, `timestamp` to now, `type` through
`numberToHex(tx.type || 1)` — encode the ordered 8-item list, blake2b256
it, ed25519-sign, self-verify (`=== false` throws), build the 96-byte
`publicKey || signature` blob, decode the encoded list, append the blob
and re-encode.  The callback plumbing carries no extra behaviour and is
not modelled. -/
def signTransaction (C : Crypto) (now : Nat) (txOpt : Option Tx) (privateKey : JsStr) :
    Except JsError SignedResult :=
  match privateKeyToAccount C privateKey with
  | .error e => .error e
  | .ok account =>
    match txOpt with
    | none => .error .noTransactionGiven
    | some tx0 =>
      if tx0.nonce.isSome && tx0.gasPrice.isSome then
        if negChk tx0.nonce || negChk tx0.gas || negChk tx0.gasPrice ||
            negChk tx0.chainId || negChk tx0.type then
          .error .negativeValues
        else if jsFalsyI tx0.gas && jsFalsyI tx0.gasLimit then
          .error .gasMissing
        else
          let tx := inputCallFormatter tx0
          let rlpEncoded := rlpEncode (.list [
            .num (tx.nonce.getD 0),
            .str (toLowerStr (jsOrStr tx.to (jstr "0x"))),
            .str (jsOrStr tx.value (jstr "0x")),
            .str (jsOrStr tx.data (jstr "0x")),
            .num (jsOrInt tx.timestamp (Int.ofNat now)),
            toAionLong tx.gas,
            toAionLong tx.gasPrice,
            .str (numberToHex (jsOrInt tx.type 1))])
          let hash := C.blake2b256 rlpEncoded
          let signature := C.naclSign hash account.privateKey
          if C.naclVerify hash signature account.publicKey then
            let aionPubSig := concatTo (account.publicKey ++ signature) 96
            match rlpDecodeTop rlpEncoded with
            | some (.list decoded) =>
              .ok ⟨bufferToZeroXHex hash, bufferToZeroXHex aionPubSig,
                   bufferToZeroXHex (lenTag 192 (rlpEncodeValItems decoded ++ encodeBytes aionPubSig))⟩
            | _ => .error .typeError
          else .error .couldNotVerify
      else .error .notProvided

/-- The signature argument `recover` accepts: a `Buffer` (from
`recoverTransaction`) or a `0x` hex string. -/
inductive RecoverArg where
  | buf (b : List Nat)
  | hexStr (s : JsStr)

/-- `toBuffer` on a `recover` signature argument. -/
def toBufferArg : RecoverArg → List Nat
  | .buf b => b
  | .hexStr s => toBufferHex s

/-- `Accounts.prototype.recover`: take the signature (or the message
object's `signature` field), slice the first 32 bytes
(`nacl.sign.publicKeyLength`) as the public key and derive its address.
No hashing and no signature verification happens.  `toBuffer(undefined)`
throws, modelled as a `TypeError`. -/
def recover (C : Crypto) (message : Option SignedResult) (signature : Option RecoverArg) :
    Except JsError JsStr :=
  match signature.orElse fun _ => message.map fun m => RecoverArg.hexStr m.signature with
  | some sig => .ok (createA0Address C ((toBufferArg sig).take 32))
  | none => .error .typeError

/-- `Accounts.prototype.recoverTransaction`: decode the raw bytes, pop
the last item (the signature blob) and hand it to `recover`.  A
non-array decode result or an empty array makes the subsequent `Buffer`
operations throw, modelled as a `TypeError`; the signer never produces a
nested array as last item, a case likewise modelled as the `TypeError`
of `toBuffer` on an array-of-arrays. -/
def recoverTransaction (C : Crypto) (rawTx : List Nat) : Except JsError JsStr :=
  match rlpDecodeTop rawTx with
  | some (.list xs) =>
    match xs.getLast? with
    | some (.bytes blob) => recover C none (some (.buf blob))
    | _ => .error .typeError
  | _ => .error .typeError

/-! ## Keystore cipher (`encrypt` / `decrypt`) and compact codec -/

/-- The `kdfparams` object.  The scrypt path fills `n`, `r`, `p`; the
(dead) pbkdf2 path would fill `c` and `prf`; absent fields are the JS
`undefined`. -/
structure KdfParams where
  dklen : Nat
  salt : JsStr
  n : Option Nat := none
  r : Option Nat := none
  p : Option Nat := none
  c : Option Nat := none
  prf : Option JsStr := none
deriving DecidableEq

/-- The `crypto` block of a V3 keystore; `iv` is `cipherparams.iv`. -/
structure CryptoBlock where
  ciphertext : JsStr
  iv : JsStr
  cipher : JsStr
  kdf : JsStr
  kdfparams : KdfParams
  mac : JsStr
deriving DecidableEq

/-- A V3 keystore object. -/
structure KeystoreV3 where
  version : Int
  id : JsStr
  address : JsStr
  crypto : CryptoBlock
deriving DecidableEq

/-- A JavaScript value, as far as the password check needs to
distinguish: `_.isString(password)` gates `decrypt`. -/
inductive JsVal where
  | str (s : JsStr)
  | num (n : Int)
  | boolean (b : Bool)
  | undef
  | nul
deriving DecidableEq

/-- `_.isString`. -/
def JsVal.isString : JsVal → Bool
  | .str _ => true
  | _ => false

/-- The recognized fields of the `encrypt` options bag. -/
structure EncOptions where
  salt : Option (List Nat) := none
  iv : Option (List Nat) := none
  kdf : Option JsStr := none
  dklen : Option Nat := none
  n : Option Nat := none
  r : Option Nat := none
  p : Option Nat := none
  c : Option Nat := none
  cipher : Option JsStr := none
  uuid : Option (List Nat) := none
deriving DecidableEq

/-- JS truthiness-based default (`v || d`) for a natural-number option:
absent and `0` both take the default. -/
def jsOrNat (o : Option Nat) (d : Nat) : Nat :=
  match o with
  | none => d
  | some v => if v = 0 then d else v

/-- JS truthiness of a natural-number option (`!!v`). -/
def jsTruthyNat (o : Option Nat) : Bool :=
  match o with
  | none => false
  | some v => decide (v ≠ 0)

/-- `uuid.v4` over caller-supplied random bytes: set the version and
variant bits, hex-render in the 8-4-4-4-12 dashed layout. -/
def uuidV4 (random : List Nat) : JsStr :=
  let b := concatTo random 16
  let b6 := (b.getD 6 0) % 256 &&& 15 ||| 64
  let b8 := (b.getD 8 0) % 256 &&& 63 ||| 128
  let h := hexEncode ((b.set 6 b6).set 8 b8)
  h.take 8 ++ [45] ++ (h.drop 8).take 4 ++ [45] ++ (h.drop 12).take 4 ++ [45] ++
    (h.drop 16).take 4 ++ [45] ++ h.drop 20

/-- A counter-mode stream cipher (AES-128-CTR contract): byte `i` of the
data is xored with byte `i` of the keystream.  Encryption and decryption
are the same operation. -/
def ctrXor (ks : Nat → Nat) : Nat → List Nat → List Nat
  | _, [] => []
  | i, b :: rest => (b ^^^ ks i) :: ctrXor ks (i + 1) rest

/-- `Accounts.prototype.encrypt` (`accounts.js` 321-387).  The account is
built from the secret key; an explicit `options.kdf === 'pbkdf2'` throws
up front (the `!== null ||` guard in the source is vacuously true, so
the test is exactly this equality); `kdf` defaults to `scrypt`;
`kdfparams.n` comes from `(options.n || fast) ? 8192 : 262144` — the JS
conditional binds after `||`, so any truthy `options.n` still yields
8192; the derived key's first 16 bytes key the stream cipher over the
key bytes (`account.privateKey` massaged from hex, modelled directly as
the key bytes), the mac is blake2b256 of bytes 16..31 of the derived key
followed by the ciphertext.  `createCipheriv` accepts only the modelled
`aes-128-ctr` (an unknown name throws, modelled as the source's
`Unsupported cipher`).  The pbkdf2 arm of the kdf dispatch is
unreachable because of the up-front guard but is embedded anyway. -/
def encrypt (C : Crypto) (privateKey pw : JsStr) (options : EncOptions) (fast : Bool) :
    Except JsError KeystoreV3 :=
  match privateKeyToAccount C privateKey with
  | .error e => .error e
  | .ok account =>
    let salt := options.salt.getD (C.randomBytes 32)
    let iv := options.iv.getD (C.randomBytes 16)
    if options.kdf = some (jstr "pbkdf2") then .error .pbkdf2NotSupported
    else
      let kdf := options.kdf.getD (jstr "scrypt")
      let dklen := jsOrNat options.dklen 32
      if kdf = jstr "pbkdf2" then
        let c := jsOrNat options.c 262144
        let derivedKey := C.pbkdf2 pw salt c dklen
        let cipherName := options.cipher.getD (jstr "aes-128-ctr")
        if cipherName = jstr "aes-128-ctr" then
          let ciphertext := ctrXor (C.keystream (derivedKey.take 16) iv) 0 account.privateKey
          let mac := hexEncode (C.blake2b256 (((derivedKey.drop 16).take 16) ++ ciphertext))
          .ok ⟨3, uuidV4 (options.uuid.getD (C.randomBytes 16)),
               strip0x (toLowerStr account.address),
               ⟨hexEncode ciphertext, hexEncode iv, cipherName, kdf,
                ⟨dklen, hexEncode salt, none, none, none, some c, some (jstr "hmac-sha256")⟩, mac⟩⟩
        else .error .unsupportedCipher
      else if kdf = jstr "scrypt" then
        let n := if jsTruthyNat options.n || fast then 8192 else 262144
        let r := jsOrNat options.r 8
        let p := jsOrNat options.p 1
        let derivedKey := C.scrypt pw salt n r p dklen
        let cipherName := options.cipher.getD (jstr "aes-128-ctr")
        if cipherName = jstr "aes-128-ctr" then
          let ciphertext := ctrXor (C.keystream (derivedKey.take 16) iv) 0 account.privateKey
          let mac := hexEncode (C.blake2b256 (((derivedKey.drop 16).take 16) ++ ciphertext))
          .ok ⟨3, uuidV4 (options.uuid.getD (C.randomBytes 16)),
               strip0x (toLowerStr account.address),
               ⟨hexEncode ciphertext, hexEncode iv, cipherName, kdf,
                ⟨dklen, hexEncode salt, some n, some r, some p, none, none⟩, mac⟩⟩
        else .error .unsupportedCipher
      else .error .unsupportedKdf

/-- `Accounts.prototype.decrypt` (`accounts.js` 283-319).  A non-string
password throws `No password given.` before anything else; the keystore
is taken as an object (the JSON-string branch delegates to the external
`JSON.parse` and is not modelled); `version !== 3` throws; the kdf
dispatch re-derives the key with the stored scrypt params (absent params
would be `undefined`, modelled as 0) and rejects `pbkdf2` and unknown
kdfs; the mac is recomputed as blake2b256 of derived-key bytes 16..31
followed by the ciphertext and compared BEFORE any deciphering; only on
a match is the stream cipher run and the account rebuilt from
`'0x' + hex(seed)`. -/
def decrypt (C : Crypto) (v3Keystore : KeystoreV3) (password : JsVal) : Except JsError Account :=
  match password with
  | .str pw =>
    if v3Keystore.version = 3 then
      if v3Keystore.crypto.kdf = jstr "scrypt" then
        let kp := v3Keystore.crypto.kdfparams
        let derivedKey := C.scrypt pw (hexDecode kp.salt) (kp.n.getD 0) (kp.r.getD 0) (kp.p.getD 0) kp.dklen
        let ciphertext := hexDecode v3Keystore.crypto.ciphertext
        let mac := hexEncode (C.blake2b256 (((derivedKey.drop 16).take 16) ++ ciphertext))
        if mac = v3Keystore.crypto.mac then
          if v3Keystore.crypto.cipher = jstr "aes-128-ctr" then
            let seed := jstr "0x" ++ hexEncode (ctrXor
              (C.keystream (derivedKey.take 16) (hexDecode v3Keystore.crypto.iv)) 0 ciphertext)
            privateKeyToAccount C seed
          else .error .unsupportedCipher
        else .error .authenticationError
      else if v3Keystore.crypto.kdf = jstr "pbkdf2" then .error .pbkdf2NotSupported
      else .error .unsupportedKdf
    else .error .notValidV3
  | _ => .error .noPasswordGiven

/-- `toRlp` (`accounts.js` 406-436).  The function builds and encodes
`_kdfparams` (reserved empty slot 0, then dklen, n, p, r, salt) and
`_cipherparams`, but then `_crypto[5] = Kdfparams;` reads the undeclared
identifier `Kdfparams` — the encoded value was bound as lowercase
`kdfparams` — so every call raises a `ReferenceError` before the crypto
and keystore lists exist (`_keystore[3] = Crypto` repeats the slip with
`crypto`).  The embedding performs the computations that precede the
faulting line and then yields that error. -/
def toRlp (ksv3 : KeystoreV3) : Except JsError (List Nat) :=
  let _kdfparams : List RlpInput := [
    .str [],
    .num (ksv3.crypto.kdfparams.dklen : Int),
    .num ((ksv3.crypto.kdfparams.n.getD 0 : Nat) : Int),
    .num ((ksv3.crypto.kdfparams.p.getD 0 : Nat) : Int),
    .num ((ksv3.crypto.kdfparams.r.getD 0 : Nat) : Int),
    .str ksv3.crypto.kdfparams.salt]
  let _kdfparamsEnc := rlpEncode (.list _kdfparams)
  let _cipherparamsEnc := rlpEncode (.list [.str ksv3.crypto.iv])
  .error (.referenceError (jstr "Kdfparams"))

/-- `parseInt(s, 16)`: greedy leading hex digits; the `NaN` of an empty
parse is modelled as 0 (no claim exercises it). -/
def parseIntHexAux : List Nat → Nat → Nat
  | [], acc => acc
  | c :: rest, acc =>
    if (48 ≤ c ∧ c ≤ 57) ∨ (97 ≤ c ∧ c ≤ 102) ∨ (65 ≤ c ∧ c ≤ 70) then
      parseIntHexAux rest (acc * 16 + hexVal c)
    else acc

def parseIntHex (s : JsStr) : Nat := parseIntHexAux s 0

/-- `fromRlp` (`accounts.js` 446-475): hex-decode, decode the outer
list, the crypto list, the cipherparams and kdfparams lists, and rebuild
the keystore object; `toString('utf8')` on the ASCII buffers is the
identity on code points; the integers are `parseInt(hex, 16)`.  Any
shape mismatch makes the source's `Buffer` operations throw, modelled
as a `TypeError`. -/
def fromRlp (keystore : JsStr) : Except JsError KeystoreV3 :=
  match rlpDecodeTop (hexDecode keystore) with
  | some (.list ks) =>
    match ks.get? 0, ks.get? 1, ks.get? 2, ks.get? 3 with
    | some (.bytes kid), some (.bytes ver), some (.bytes addr), some (.bytes cryptoEnc) =>
      match rlpDecodeTop cryptoEnc with
      | some (.list cr) =>
        match cr.get? 0, cr.get? 1, cr.get? 2, cr.get? 3, cr.get? 4, cr.get? 5 with
        | some (.bytes ciph), some (.bytes ct), some (.bytes kdf), some (.bytes mac),
          some (.bytes cpEnc), some (.bytes kpEnc) =>
          match rlpDecodeTop cpEnc, rlpDecodeTop kpEnc with
          | some (.list cps), some (.list kps) =>
            match cps.get? 0, kps.get? 1, kps.get? 2, kps.get? 3, kps.get? 4, kps.get? 5 with
            | some (.bytes iv), some (.bytes dklen), some (.bytes n), some (.bytes p),
              some (.bytes r), some (.bytes salt) =>
              .ok ⟨Int.ofNat (parseIntHex (hexEncode ver)), kid, addr,
                   ⟨ct, iv, ciph, kdf,
                    ⟨parseIntHex (hexEncode dklen), salt,
                     some (parseIntHex (hexEncode n)), some (parseIntHex (hexEncode r)),
                     some (parseIntHex (hexEncode p)), none, none⟩, mac⟩⟩
            | _, _, _, _, _, _ => .error .typeError
          | _, _ => .error .typeError
        | _, _, _, _, _, _ => .error .typeError
      | _ => .error .typeError
    | _, _, _, _ => .error .typeError
  | _ => .error .typeError

/-! ## Round-trip lemmas for the byte-level helpers -/

theorem hexVal_lt (c : Nat) : hexVal c < 16 := by
  unfold hexVal
  split <;> (try split) <;> (try split) <;> omega

theorem hexVal_hexDigitCp (a : Nat) (h : a < 16) : hexVal (hexDigitCp a) = a := by
  interval_cases a <;> rfl

theorem hexDecode_lt : ∀ (s : JsStr), ∀ x ∈ hexDecode s, x < 256
  | [] => by intro x hx; cases hx
  | [_] => by intro x hx; cases hx
  | c1 :: c2 :: rest => by
    intro x hx
    rcases List.mem_cons.mp hx with h | h
    · have := hexVal_lt c1
      have := hexVal_lt c2
      omega
    · exact hexDecode_lt rest x h

theorem hexDecode_hexEncode (b : List Nat) (h : ∀ x ∈ b, x < 256) :
    hexDecode (hexEncode b) = b := by
  induction b with
  | nil => rfl
  | cons x rest ih =>
    have hx : x < 256 := h x (List.mem_cons_self x rest)
    have h16a : x % 256 / 16 < 16 := by omega
    have h16b : x % 16 < 16 := by omega
    show hexDecode (hexDigitCp (x % 256 / 16) :: hexDigitCp (x % 16) :: hexEncode rest) = x :: rest
    unfold hexDecode
    rw [hexVal_hexDigitCp _ h16a, hexVal_hexDigitCp _ h16b,
      ih fun y hy => h y (List.mem_cons_of_mem x hy)]
    congr 1
    omega

theorem ctrXor_invol (f : Nat → Nat) (b : List Nat) :
    ∀ i, ctrXor f i (ctrXor f i b) = b := by
  induction b with
  | nil => intro i; rfl
  | cons x rest ih =>
    intro i
    show ((x ^^^ f i) ^^^ f i) :: ctrXor f (i + 1) (ctrXor f (i + 1) rest) = x :: rest
    rw [Nat.xor_assoc, Nat.xor_self, Nat.xor_zero, ih]

theorem ctrXor_lt (f : Nat → Nat) (hf : ∀ j, f j < 256) (b : List Nat)
    (hb : ∀ x ∈ b, x < 256) : ∀ i, ∀ y ∈ ctrXor f i b, y < 256 := by
  induction b with
  | nil => intro i y hy; cases hy
  | cons x rest ih =>
    intro i y hy
    rcases List.mem_cons.mp hy with h | h
    · have hx : x < 2 ^ 8 := hb x (List.mem_cons_self x rest)
      have hfi : f i < 2 ^ 8 := hf i
      subst h
      exact Nat.xor_lt_two_pow hx hfi
    · exact ih (fun z hz => hb z (List.mem_cons_of_mem x hz)) (i + 1) y h

/-- Public key bytes used by the concrete transaction-recovery
evidence. -/
def pubRec : List Nat := (List.range 32).map fun i => (i * 7 + 1) % 256

/-- Claim C3 (code evidence): `recoverTransaction` returns the address
derived from the first 32 bytes of the embedded blob with no
re-derivation, re-hash or verification of the signature: two raw
transactions whose signature bytes differ arbitrarily (all-zero versus
all-one) both yield the same address, and no
`SignatureVerificationError` exists in the code. -/
theorem recoverTransaction_no_verification :
    recoverTransaction testCrypto
      (rlpEncode (.list [.raw [5], .raw [6], .raw (pubRec ++ List.replicate 64 0)]))
      = .ok (createA0Address testCrypto pubRec) ∧
    recoverTransaction testCrypto
      (rlpEncode (.list [.raw [5], .raw [6], .raw (pubRec ++ List.replicate 64 1)]))
      = .ok (createA0Address testCrypto pubRec) := by
  constructor <;> rfl

/-- Claim C4 (code evidence): `toRlp` raises a `ReferenceError` on
every input — `_crypto[5] = Kdfparams` reads an undeclared identifier —
so `fromRlp (toRlp k)` can never return `k`. -/
theorem toRlp_always_referenceError (k : KeystoreV3) :
    toRlp k = .error (.referenceError (jstr "Kdfparams")) := rfl

/-- Claim C10: a non-string password makes `decrypt` fail with
`No password given.` before the keystore is inspected: the result is the
same for every keystore and every collaborator instance, so no version
check, key derivation or MAC comparison happens. -/
theorem decrypt_no_password (C C' : Crypto) (ks ks' : KeystoreV3) (pw : JsVal)
    (h : pw.isString = false) :
    decrypt C ks pw = .error .noPasswordGiven ∧ decrypt C ks pw = decrypt C' ks' pw := by
  cases pw with
  | str s => simp [JsVal.isString] at h
  | num n => exact ⟨rfl, rfl⟩
  | boolean b => exact ⟨rfl, rfl⟩
  | undef => exact ⟨rfl, rfl⟩
  | nul => exact ⟨rfl, rfl⟩

/-- A throwaway keystore value for witnesses. -/
def ksDummy : KeystoreV3 :=
  ⟨3, jstr "id-a", jstr "a0ff", ⟨jstr "00", jstr "00", jstr "aes-128-ctr", jstr "scrypt",
    ⟨32, jstr "00", some 8192, some 8, some 1, none, none⟩, jstr "00"⟩⟩

/-- A second, different throwaway keystore value for witnesses. -/
def ksDummy2 : KeystoreV3 :=
  ⟨2, jstr "id-b", jstr "a0aa", ⟨jstr "11", jstr "11", jstr "x", jstr "pbkdf2",
    ⟨16, jstr "11", none, none, none, some 1, none⟩, jstr "11"⟩⟩

/-- Witness for C10 with a numeric password and two different keystores. -/
theorem decrypt_no_password_witness :
    (JsVal.num 5).isString = false ∧
    decrypt testCrypto ksDummy (.num 5) = .error .noPasswordGiven ∧
    decrypt testCrypto ksDummy (.num 5) = decrypt testCrypto ksDummy2 (.num 5) :=
  ⟨by decide,
   (decrypt_no_password testCrypto testCrypto ksDummy ksDummy2 (.num 5) (by decide)).1,
   (decrypt_no_password testCrypto testCrypto ksDummy ksDummy2 (.num 5) (by decide)).2⟩

/-- The account value `privateKeyToAccount` yields on a well-sized key. -/
theorem privateKeyToAccount_ok (C : Crypto) (pk : JsStr) (hpk : (toBufferHex pk).length = 64) :
    privateKeyToAccount C pk
      = .ok ⟨toBufferHex pk, C.naclPub (toBufferHex pk),
             createA0Address C (C.naclPub (toBufferHex pk))⟩ := by
  unfold privateKeyToAccount createKeyPair
  simp [hpk]
  rfl

/-- Claim C6: with a well-sized key and the outer `nonce`/`gasPrice`
gate passed, any negative `nonce`, `gas`, `gasPrice`, `chainId` or
`type` makes `signTransaction` fail with the validation error — for
every collaborator instance `C`, so no encoding, hashing or signing
contributes to the result and no partial output exists. -/
theorem signTransaction_negative_validation (C : Crypto) (now : Nat) (tx : Tx) (pk : JsStr)
    (hpk : (toBufferHex pk).length = 64)
    (hnonce : tx.nonce.isSome = true) (hgp : tx.gasPrice.isSome = true)
    (hneg : (negChk tx.nonce || negChk tx.gas || negChk tx.gasPrice ||
      negChk tx.chainId || negChk tx.type) = true) :
    signTransaction C now (some tx) pk = .error .negativeValues := by
  unfold signTransaction
  rw [privateKeyToAccount_ok C pk hpk]
  simp [hnonce, hgp, hneg]

/-- A well-sized concrete secret key for witnesses. -/
def pkWit : JsStr := jstr "0x" ++ hexEncode (List.range 64)

/-- A transaction with `nonce = -1` for the C6 witness. -/
def txNegWit : Tx := { nonce := some (-1), gas := some 21000, gasPrice := some 10 }

/-- Witness for C6 at `nonce = -1`. -/
theorem signTransaction_negative_validation_witness :
    ((toBufferHex pkWit).length = 64 ∧ txNegWit.nonce.isSome = true ∧
      txNegWit.gasPrice.isSome = true ∧
      (negChk txNegWit.nonce || negChk txNegWit.gas || negChk txNegWit.gasPrice ||
        negChk txNegWit.chainId || negChk txNegWit.type) = true) ∧
    signTransaction testCrypto 1700000000 (some txNegWit) pkWit = .error .negativeValues :=
  ⟨⟨by decide, by decide, by decide, by decide⟩,
   signTransaction_negative_validation testCrypto 1700000000 txNegWit pkWit
     (by decide) (by decide) (by decide) (by decide)⟩

/-- The message hash carried by a signing result (empty on error); a
total extractor so concrete statements stay closed. -/
def msgHashOf : Except JsError SignedResult → JsStr
  | .ok r => r.messageHash
  | .error _ => []

/-- The canonical 8-item list as claim C2 states it, written from the
spec's words: identical to the source's construction except that `type`
is in the big-integer wire form. -/
def specCanonicalItems (now : Nat) (tx : Tx) : List RlpInput := [
  .num (tx.nonce.getD 0),
  .str (toLowerStr (jsOrStr tx.to (jstr "0x"))),
  .str (jsOrStr tx.value (jstr "0x")),
  .str (jsOrStr tx.data (jstr "0x")),
  .num (jsOrInt tx.timestamp (Int.ofNat now)),
  toAionLong tx.gas,
  toAionLong tx.gasPrice,
  .long (some (jsOrInt tx.type 1))]

/-- Claim C2 (amended): every successful `signTransaction` hashes the
encoding of exactly the ordered 8-item list
`[nonce, to(lowercased), value, data, timestamp, gas, gasPrice, type]`
with the stated defaults, `gas` and `gasPrice` in the big-integer wire
form and `type` in the general byte-string form via `numberToHex`. -/
theorem signTransaction_canonical_amended (C : Crypto) (now : Nat) (tx : Tx) (pk : JsStr)
    (res : SignedResult) (h : signTransaction C now (some tx) pk = .ok res) :
    res.messageHash = jstr "0x" ++ hexEncode (C.blake2b256 (rlpEncode (.list [
      .num (tx.nonce.getD 0),
      .str (toLowerStr (jsOrStr tx.to (jstr "0x"))),
      .str (jsOrStr tx.value (jstr "0x")),
      .str (jsOrStr tx.data (jstr "0x")),
      .num (jsOrInt tx.timestamp (Int.ofNat now)),
      toAionLong tx.gas,
      toAionLong tx.gasPrice,
      .str (numberToHex (jsOrInt tx.type 1))]))) := by
  unfold signTransaction at h
  split at h
  · exact absurd h (by simp)
  · simp only [inputCallFormatter] at h
    split at h
    · split at h
      · exact absurd h (by simp)
      · split at h
        · exact absurd h (by simp)
        · split at h
          · split at h
            · injection h with h'
              rw [← h']
              rfl
            · exact absurd h (by simp)
          · exact absurd h (by simp)
    · exact absurd h (by simp)

/-- A complete concrete transaction for the C2 evidence. -/
def txWit : Tx := { nonce := some 1, timestamp := some 1234, gas := some 21000, gasPrice := some 10 }

/-- Counterexample to C2 as stated: at a concrete transaction the
message hash the code produces is the hash of the list whose `type` slot
is the `numberToHex` byte string, NOT the hash of the claim's list with
`type` in the big-integer wire form (`specCanonicalItems`). -/
theorem signTransaction_type_wire_counterexample :
    msgHashOf (signTransaction testCrypto 999 (some txWit) pkWit)
      ≠ jstr "0x" ++ hexEncode (testCrypto.blake2b256 (rlpEncode
          (.list (specCanonicalItems 999 txWit)))) := by
  decide

/-- Witness for the amended C2 at the concrete transaction `txWit`. -/
theorem signTransaction_canonical_amended_witness :
    msgHashOf (signTransaction testCrypto 999 (some txWit) pkWit)
      = jstr "0x" ++ hexEncode (testCrypto.blake2b256 (rlpEncode (.list [
          .num (txWit.nonce.getD 0),
          .str (toLowerStr (jsOrStr txWit.to (jstr "0x"))),
          .str (jsOrStr txWit.value (jstr "0x")),
          .str (jsOrStr txWit.data (jstr "0x")),
          .num (jsOrInt txWit.timestamp (Int.ofNat 999)),
          toAionLong txWit.gas,
          toAionLong txWit.gasPrice,
          .str (numberToHex (jsOrInt txWit.type 1))]))) := by
  cases hE : signTransaction testCrypto 999 (some txWit) pkWit with
  | ok r =>
    exact signTransaction_canonical_amended testCrypto 999 txWit pkWit r hE
  | error e =>
    have hne : msgHashOf (signTransaction testCrypto 999 (some txWit) pkWit) ≠ [] := by decide
    rw [hE] at hne
    exact absurd rfl hne

/-- Claim C1: decrypting the keystore produced by `encrypt` with the
same password yields the account of the original secret key; with a
password whose recomputed MAC mismatches the stored one (any different
password, absent KDF/hash collisions) it fails with the authentication
error, for EVERY keystream — the MAC is checked before any decryption is
attempted.  The hypotheses are the collaborator contracts: a well-sized
key, supported kdf/cipher options, byte-valued salt/iv/keystream. -/
theorem encrypt_decrypt_roundtrip (C : Crypto) (pk pw pw' : JsStr) (options : EncOptions)
    (fast : Bool) (ks : KeystoreV3)
    (hpk : (toBufferHex pk).length = 64)
    (hkdf : options.kdf = none ∨ options.kdf = some (jstr "scrypt"))
    (hciph : options.cipher = none ∨ options.cipher = some (jstr "aes-128-ctr"))
    (hsalt : ∀ x ∈ options.salt.getD (C.randomBytes 32), x < 256)
    (hiv : ∀ x ∈ options.iv.getD (C.randomBytes 16), x < 256)
    (hks : ∀ key iv i, C.keystream key iv i < 256)
    (henc : encrypt C pk pw options fast = .ok ks)
    (hmac' : hexEncode (C.blake2b256 (((C.scrypt pw' (hexDecode ks.crypto.kdfparams.salt)
        (ks.crypto.kdfparams.n.getD 0) (ks.crypto.kdfparams.r.getD 0)
        (ks.crypto.kdfparams.p.getD 0) ks.crypto.kdfparams.dklen).drop 16).take 16
        ++ hexDecode ks.crypto.ciphertext)) ≠ ks.crypto.mac) :
    decrypt C ks (.str pw)
      = .ok ⟨toBufferHex pk, C.naclPub (toBufferHex pk),
             createA0Address C (C.naclPub (toBufferHex pk))⟩ ∧
    ∀ f, decrypt { C with keystream := f } ks (.str pw') = .error .authenticationError := by
  have hguard : ¬(options.kdf = some (jstr "pbkdf2")) := by
    rcases hkdf with h | h
    · simp [h]
    · rw [h]
      intro hc
      exact absurd (Option.some.inj hc) (by decide)
  have hkdfD : options.kdf.getD (jstr "scrypt") = jstr "scrypt" := by
    rcases hkdf with h | h <;> rw [h] <;> rfl
  have hciphD : options.cipher.getD (jstr "aes-128-ctr") = jstr "aes-128-ctr" := by
    rcases hciph with h | h <;> rw [h] <;> rfl
  have hne1 : ¬(jstr "scrypt" = jstr "pbkdf2") := by decide
  unfold encrypt at henc
  rw [privateKeyToAccount_ok C pk hpk] at henc
  simp only [hkdfD, hciphD, if_neg hguard, if_neg hne1, eq_self_iff_true, if_true] at henc
  injection henc with hkseq
  subst hkseq
  constructor
  · -- round trip with the right password
    have hsalt_rt : hexDecode (hexEncode (options.salt.getD (C.randomBytes 32)))
        = options.salt.getD (C.randomBytes 32) := hexDecode_hexEncode _ hsalt
    have hiv_rt : hexDecode (hexEncode (options.iv.getD (C.randomBytes 16)))
        = options.iv.getD (C.randomBytes 16) := hexDecode_hexEncode _ hiv
    have hPTlt : ∀ x ∈ toBufferHex pk, x < 256 := hexDecode_lt _
    have hCTlt : ∀ y ∈ ctrXor (C.keystream ((C.scrypt pw (options.salt.getD (C.randomBytes 32))
        (if jsTruthyNat options.n || fast then 8192 else 262144) (jsOrNat options.r 8)
        (jsOrNat options.p 1) (jsOrNat options.dklen 32)).take 16)
        (options.iv.getD (C.randomBytes 16))) 0 (toBufferHex pk), y < 256 :=
      ctrXor_lt _ (fun j => hks _ _ j) _ hPTlt 0
    have hCT_rt := hexDecode_hexEncode _ hCTlt
    unfold decrypt
    simp only [hsalt_rt, hiv_rt, hCT_rt, Option.getD_some, eq_self_iff_true, if_true]
    rw [ctrXor_invol]
    have hseed : toBufferHex (jstr "0x" ++ hexEncode (toBufferHex pk)) = toBufferHex pk := by
      unfold toBufferHex
      rw [strip0x_prepend]
      exact hexDecode_hexEncode _ hPTlt
    rw [privateKeyToAccount_ok]
    · rw [hseed]
    · rw [hseed]
      exact hpk
  · -- wrong password: MAC mismatch rejects before any deciphering
    intro f
    unfold decrypt
    simp only [Option.getD_some, eq_self_iff_true, if_true] at hmac' ⊢
    rw [if_neg hmac']

/-- Concrete password for the C1 witness. -/
def pwWit : JsStr := jstr "correct horse"

/-- A different concrete password for the C1 witness. -/
def pwWitWrong : JsStr := jstr "x"

/-- Concrete encryption options (fixed salt, iv and uuid bytes) for the
C1 witness. -/
def optsWit : EncOptions :=
  { salt := some ((List.range 32).map fun i => (i * 3 + 1) % 256),
    iv := some ((List.range 16).map fun i => (i * 5 + 2) % 256),
    uuid := some (List.range 16) }

/-- The keystore `encrypt` produces at the C1 witness inputs. -/
def ksWit : KeystoreV3 :=
  match encrypt testCrypto pkWit pwWit optsWit true with
  | .ok ks => ks
  | .error _ => ksDummy

set_option maxRecDepth 100000 in
/-- Witness for C1 at concrete key, passwords and options. -/
theorem encrypt_decrypt_roundtrip_witness :
    ((toBufferHex pkWit).length = 64 ∧
      encrypt testCrypto pkWit pwWit optsWit true = .ok ksWit ∧
      hexEncode (testCrypto.blake2b256 (((testCrypto.scrypt pwWitWrong
          (hexDecode ksWit.crypto.kdfparams.salt)
          (ksWit.crypto.kdfparams.n.getD 0) (ksWit.crypto.kdfparams.r.getD 0)
          (ksWit.crypto.kdfparams.p.getD 0) ksWit.crypto.kdfparams.dklen).drop 16).take 16
          ++ hexDecode ksWit.crypto.ciphertext)) ≠ ksWit.crypto.mac) ∧
    decrypt testCrypto ksWit (.str pwWit)
      = .ok ⟨toBufferHex pkWit, testCrypto.naclPub (toBufferHex pkWit),
             createA0Address testCrypto (testCrypto.naclPub (toBufferHex pkWit))⟩ ∧
    decrypt { testCrypto with keystream := testCrypto.keystream } ksWit (.str pwWitWrong)
      = .error .authenticationError := by
  have h := encrypt_decrypt_roundtrip testCrypto pkWit pwWit pwWitWrong optsWit true ksWit
    (by decide) (Or.inl rfl) (Or.inl rfl) (by decide) (by decide)
    (fun key iv i => Nat.mod_lt _ (by decide)) (by rfl) (by decide)
  exact ⟨⟨by decide, by rfl, by decide⟩, h.1, h.2 testCrypto.keystream⟩

end AionKeystore
